import Mathlib

/-! # Verification of the topmostbackend car-wash tracker

A shallow embedding of the payment-attribution and aggregation logic of the
`topmostbackend` repository (`src/controllers/recordController.js` and
`src/controllers/paymentController.js`), together with theorems settling the
specification claims about it.

Modelling conventions:
* JavaScript numbers carrying money are modelled as exact rationals (`ℚ`);
  the decimal literals `0.5`, `0.6`, `0.4` of the source denote the exact
  rationals `1/2`, `3/5`, `2/5` here.
* `String.prototype.toLowerCase()` is modelled by `jsToLower` (per-character
  lowercasing) and `String.prototype.includes` by `containsSub`.
* The Prisma store is modelled as a `State` record of tables (lists of rows).
  Timestamps are epoch milliseconds (`Nat`); `new Date()` with
  `setHours(0,0,0,0)` is truncation to a multiple of `msPerDay`.
* `Math.round(x * 100) / 100` is `round2` (round half toward +∞ on cents).
* Queries inside the Prisma interactive transaction of job creation read the
  transaction's own earlier writes, as they do on the Postgres connection.
-/

namespace Topmost

/-- Model of `String.prototype.toLowerCase()` (per-character lowercase). -/
def jsToLower (s : String) : String := String.mk (s.data.map Char.toLower)

/-- Whether `pat` occurs contiguously inside the character list: `charsContain l pat` holds when `pat` occurs contiguously inside `l`. -/
def charsContain (pat : List Char) : List Char → Bool
  | [] => pat.isEmpty
  | c :: rest => pat.isPrefixOf (c :: rest) || charsContain pat rest

/-- Model of `s.includes(pat)` on JavaScript strings. -/
def containsSub (s pat : String) : Bool := charsContain pat.data s.data

/-- The `{companyShare, washerShare}` record returned by the split policy. -/
structure Split where
  companyShare : ℚ
  washerShare : ℚ
deriving DecidableEq, Repr

namespace RecordController

/-- Function `calculatePaymentSplit` from `src/controllers/recordController.js`
(lines 12-33): special items (name contains engine/radiator/condenser,
case-insensitively) give washer `price/3` and company `(price/3)*2`; rug
items split 50/50; all other items split 60% company / 40% washer. -/
def calculatePaymentSplit (serviceItemName : String) (price : ℚ) : Split :=
  let specialItems := ["engine", "radiator", "condenser"]
  let isSpecial := specialItems.any fun item => containsSub (jsToLower serviceItemName) item
  let isRug := containsSub (jsToLower serviceItemName) "rug"
  if isSpecial then
    { companyShare := (price / 3) * 2, washerShare := price / 3 }
  else if isRug then
    { companyShare := price * 0.5, washerShare := price * 0.5 }
  else
    { companyShare := price * 0.6, washerShare := price * 0.4 }

/-- Function `isSpecialItem` from `src/controllers/recordController.js` (lines 39-44). -/
def isSpecialItem (serviceItemName : String) : Bool :=
  let specialItems := ["engine", "radiator", "condenser"]
  specialItems.any fun item => containsSub (jsToLower serviceItemName) item

end RecordController

namespace PaymentController

/-- Function `calculatePaymentSplit` from `src/controllers/paymentController.js`
(lines 12-33); the source duplicates the record controller's function
verbatim. -/
def calculatePaymentSplit (serviceItemName : String) (price : ℚ) : Split :=
  let specialItems := ["engine", "radiator", "condenser"]
  let isSpecial := specialItems.any fun item => containsSub (jsToLower serviceItemName) item
  let isRug := containsSub (jsToLower serviceItemName) "rug"
  if isSpecial then
    { companyShare := (price / 3) * 2, washerShare := price / 3 }
  else if isRug then
    { companyShare := price * 0.5, washerShare := price * 0.5 }
  else
    { companyShare := price * 0.6, washerShare := price * 0.4 }

end PaymentController

/-- The rug test used inside `calculatePaymentSplit`. -/
def isRugItem (serviceItemName : String) : Bool :=
  containsSub (jsToLower serviceItemName) "rug"

theorem calculatePaymentSplit_eq_ite (name : String) (p : ℚ) :
    RecordController.calculatePaymentSplit name p =
      if RecordController.isSpecialItem name then
        { companyShare := (p / 3) * 2, washerShare := p / 3 }
      else if isRugItem name then
        { companyShare := p * 0.5, washerShare := p * 0.5 }
      else
        { companyShare := p * 0.6, washerShare := p * 0.4 } := rfl

/-- C4: the split policy classifies by case-insensitive keyword containment:
special names (engine/radiator/condenser) yield washer `p/3`, company `2p/3`
regardless of whether the name also contains "rug"; otherwise rug names split
50/50; all remaining names split 60% company / 40% washer. -/
theorem C4_split_policy_classification (name : String) (p : ℚ) :
    (RecordController.isSpecialItem name = true →
      (RecordController.calculatePaymentSplit name p).washerShare = p / 3 ∧
      (RecordController.calculatePaymentSplit name p).companyShare = 2 * p / 3) ∧
    (RecordController.isSpecialItem name = false → isRugItem name = true →
      (RecordController.calculatePaymentSplit name p).companyShare = p / 2 ∧
      (RecordController.calculatePaymentSplit name p).washerShare = p / 2) ∧
    (RecordController.isSpecialItem name = false → isRugItem name = false →
      (RecordController.calculatePaymentSplit name p).companyShare = p * (6 / 10) ∧
      (RecordController.calculatePaymentSplit name p).washerShare = p * (4 / 10)) := by
  refine ⟨fun hs => ⟨?_, ?_⟩, fun hs hr => ⟨?_, ?_⟩, fun hs hr => ⟨?_, ?_⟩⟩ <;>
      simp only [calculatePaymentSplit_eq_ite, hs, if_true, Bool.false_eq_true, if_false] <;>
      try simp only [hr, if_true, Bool.false_eq_true, if_false]
  all_goals first | rfl | ring | norm_num

/-- Witness for C4 at the spec's own example inputs: "Engine Wash" at 300
(special, and unaffected by adding "Rug" to the name), "Car Rug" at 100,
"Full Wash" at 50. -/
theorem C4_split_policy_classification_witness :
    (RecordController.calculatePaymentSplit "Engine Rug Wash" 300).washerShare = 300 / 3 ∧
    (RecordController.calculatePaymentSplit "Car Rug" 100).companyShare = 100 / 2 ∧
    (RecordController.calculatePaymentSplit "Full Wash" 50).washerShare = 50 * (4 / 10) := by
  refine ⟨((C4_split_policy_classification "Engine Rug Wash" 300).1 (by decide)).1,
    (((C4_split_policy_classification "Car Rug" 100).2.1 (by decide) (by decide)).1),
    (((C4_split_policy_classification "Full Wash" 50).2.2 (by decide) (by decide)).2)⟩

/-- C5: over the exact rational semantics, for every price `p ≥ 0` the
non-special splits (rug and regular) satisfy `company + washer = p` exactly,
and the special split returns washer `p/3` with company `p - p/3`; the split
function itself performs no rounding. -/
theorem C5_split_sums (name : String) (p : ℚ) (hp : 0 ≤ p) :
    (RecordController.isSpecialItem name = false →
      (RecordController.calculatePaymentSplit name p).companyShare +
        (RecordController.calculatePaymentSplit name p).washerShare = p) ∧
    (RecordController.isSpecialItem name = true →
      (RecordController.calculatePaymentSplit name p).washerShare = p / 3 ∧
      (RecordController.calculatePaymentSplit name p).companyShare =
        p - (RecordController.calculatePaymentSplit name p).washerShare) := by
  clear hp
  constructor
  · intro hs
    by_cases hr : isRugItem name
    · simp only [calculatePaymentSplit_eq_ite, hs, hr, if_true, Bool.false_eq_true, if_false]
      ring
    · rw [Bool.not_eq_true] at hr
      simp only [calculatePaymentSplit_eq_ite, hs, hr, if_true, Bool.false_eq_true, if_false]
      ring
  · intro hs
    refine ⟨?_, ?_⟩ <;>
      simp only [calculatePaymentSplit_eq_ite, hs, if_true]
    ring

/-- Witness for C5 at a regular item ("Full Wash", 50) and a special item
("Engine Wash", 300). -/
theorem C5_split_sums_witness :
    (0 : ℚ) ≤ 50 ∧
    (RecordController.calculatePaymentSplit "Full Wash" 50).companyShare +
      (RecordController.calculatePaymentSplit "Full Wash" 50).washerShare = 50 ∧
    (RecordController.calculatePaymentSplit "Engine Wash" 300).washerShare = 300 / 3 := by
  refine ⟨by norm_num, (C5_split_sums "Full Wash" 50 (by norm_num)).1 (by decide),
    ((C5_split_sums "Engine Wash" 300 (by norm_num)).2 (by decide)).1⟩

/-- C9: the two verbatim copies of the split function, one in the record
controller and one in the payment controller, are extensionally equal. -/
theorem C9_split_copies_agree (name : String) (p : ℚ) :
    RecordController.calculatePaymentSplit name p =
      PaymentController.calculatePaymentSplit name p := rfl

/-! ## Data model

Rows of the Prisma tables, as read and written by the two controllers. Ids
are `Nat` (the source uses opaque string ids; only identity matters).
Columns never read by the verified code paths (car/customer descriptive
fields, phone numbers, timestamps other than `washDate`) are omitted. -/

structure Branch where
  id : Nat
  name : String
  isActive : Bool
deriving DecidableEq, Repr

structure Washer where
  id : Nat
  name : String
  branchId : Nat
  isActive : Bool
deriving DecidableEq, Repr

structure ServiceItem where
  id : Nat
  name : String
  price : ℚ
  isActive : Bool
deriving DecidableEq, Repr

/-- A `WashedItem` row: one line item of a car wash job. -/
structure LineItem where
  washerId : Nat
  serviceItemId : Nat
  price : ℚ
deriving DecidableEq, Repr

/-- A `CarWash` row together with its `washedItems` relation and the
many-to-many `washers` connection created at ingestion. -/
structure CarWash where
  id : Nat
  branchId : Nat
  washDate : Nat
  paymentMethod : Option String
  totalAmount : ℚ
  washedItems : List LineItem
  washers : List Nat
deriving DecidableEq, Repr

/-- A `DailySummary` row (per-washer-per-day aggregate), unique per
`(washerId, date, branchId)`. -/
structure DailySummary where
  washerId : Nat
  branchId : Nat
  date : Nat
  totalCarsWashed : Nat
  totalItemsWashed : Nat
deriving DecidableEq, Repr

/-- A `CompanyDailySummary` row (per-branch-per-day aggregate), unique per
`(branchId, date)`. -/
structure CompanyDailySummary where
  branchId : Nat
  date : Nat
  totalCarsWashed : Nat
  totalItemsWashed : Nat
deriving DecidableEq, Repr

/-- The persistent store. `nextId` models the id generator for new rows. -/
structure State where
  branches : List Branch
  washers : List Washer
  serviceItems : List ServiceItem
  carWashes : List CarWash
  dailySummaries : List DailySummary
  companyDailySummaries : List CompanyDailySummary
  nextId : Nat
deriving DecidableEq, Repr

/-- Milliseconds per day; timestamps are epoch milliseconds. -/
def msPerDay : Nat := 86400000

/-- Local midnight of day `day`: the `setHours(0,0,0,0)` truncation. -/
def dayStart (day : Nat) : Nat := day * msPerDay

/-- End of day `day`: the `setHours(23,59,59,999)` timestamp. -/
def dayEnd (day : Nat) : Nat := day * msPerDay + (msPerDay - 1)

/-- Model of `Math.round(x * 100) / 100`: JavaScript rounds half toward +∞. -/
def round2 (x : ℚ) : ℚ := ((x * 100 + 1 / 2 : ℚ).floor : ℚ) / 100

/-- Keep the first occurrence of each element (`[...new Set(xs)]`). -/
def dedupFirst {α : Type} [DecidableEq α] : List α → List α
  | [] => []
  | x :: xs => x :: (dedupFirst xs).filter fun y => decide (y ≠ x)

/-- The unique `ServiceItem` row with the given id (`include: serviceItem`). -/
def serviceItemById (s : State) (sid : Nat) : Option ServiceItem :=
  (s.serviceItems.filter fun it => it.id == sid).head?

/-- The current list price of service item `sid` (foreign-key integrity makes
the default branch unreachable). -/
def listPriceOf (s : State) (sid : Nat) : ℚ :=
  ((serviceItemById s sid).map (·.price)).getD 0

/-- The name of service item `sid`. -/
def listNameOf (s : State) (sid : Nat) : String :=
  ((serviceItemById s sid).map (·.name)).getD ""

/-- Query `prisma.carWash.findMany` for one branch and one calendar day
(`washDate` between local midnight and 23:59:59.999). -/
def carWashRecordsForDay (s : State) (branchId day : Nat) : List CarWash :=
  s.carWashes.filter fun cw =>
    cw.branchId == branchId && decide (dayStart day ≤ cw.washDate) &&
      decide (cw.washDate ≤ dayEnd day)

/-- Query `prisma.washedItem.findMany` for one branch and day: every line item
whose parent job is in range, paired with its parent job id. -/
def washedItemsForDay (s : State) (branchId day : Nat) : List (Nat × LineItem) :=
  (carWashRecordsForDay s branchId day).flatMap fun cw =>
    cw.washedItems.map fun it => (cw.id, it)

/-- Total of `totalAmount` over the day's records whose lowercased payment
method equals `method` (records with no payment method count for neither). -/
def paymentMethodTotal (records : List CarWash) (method : String) : ℚ :=
  ((records.filter fun r => (r.paymentMethod.map jsToLower) == some method).map
    (·.totalAmount)).sum

/-- The pre-rounding accumulators (`totalSales`, `companyEarnings`,
`washerEarnings`, `paymentMethods`) of `getCompanyDailySummary`
(recordController.js lines 436-484): for each line item the price used is the
stored price unless it is 0 (JavaScript `item.price || item.serviceItem.price`),
and the split is computed from the service item's current name. -/
structure RawTotals where
  totalSales : ℚ
  companyEarnings : ℚ
  washerEarnings : ℚ
  cash : ℚ
  transfer : ℚ
deriving DecidableEq, Repr

def branchDayRaw (s : State) (branchId day : Nat) : RawTotals :=
  let records := carWashRecordsForDay s branchId day
  let items := washedItemsForDay s branchId day
  { totalSales := (items.map fun pr =>
      if pr.2.price = 0 then listPriceOf s pr.2.serviceItemId else pr.2.price).sum
    companyEarnings := (items.map fun pr =>
      (RecordController.calculatePaymentSplit (listNameOf s pr.2.serviceItemId)
        (if pr.2.price = 0 then listPriceOf s pr.2.serviceItemId else pr.2.price)).companyShare).sum
    washerEarnings := (items.map fun pr =>
      (RecordController.calculatePaymentSplit (listNameOf s pr.2.serviceItemId)
        (if pr.2.price = 0 then listPriceOf s pr.2.serviceItemId else pr.2.price)).washerShare).sum
    cash := paymentMethodTotal records "cash"
    transfer := paymentMethodTotal records "transfer" }

/-- The `summary` and `paymentMethods` blocks of the JSON response of
`getCompanyDailySummary` (the per-item `itemsWashed` breakdown is omitted:
no claim mentions it). All monetary fields are rounded at this boundary. -/
structure DaySummaryOut where
  totalEarnings : ℚ
  companyShare : ℚ
  workerShare : ℚ
  totalJobs : Nat
  totalItemsWashed : Nat
  cash : ℚ
  transfer : ℚ
deriving DecidableEq, Repr

/-- Handler `getCompanyDailySummary` from recordController.js (lines 388-526),
restricted to the fields the claims are about. -/
def getCompanyDailySummary (s : State) (branchId day : Nat) : DaySummaryOut :=
  let raw := branchDayRaw s branchId day
  { totalEarnings := round2 raw.totalSales
    companyShare := round2 raw.companyEarnings
    workerShare := round2 raw.washerEarnings
    totalJobs := (carWashRecordsForDay s branchId day).length
    totalItemsWashed := (washedItemsForDay s branchId day).length
    cash := round2 raw.cash
    transfer := round2 raw.transfer }

/-- The `summary` block of `getDailyPaymentSummary` from paymentController.js
(lines 39-183); the per-washer breakdown is omitted: no claim mentions it. -/
structure PaymentSummaryOut where
  totalSales : ℚ
  totalCompanyEarnings : ℚ
  totalWasherEarnings : ℚ
  totalCarsWashed : Nat
  totalItemsWashed : Nat
deriving DecidableEq, Repr

def getDailyPaymentSummary (s : State) (branchId day : Nat) : PaymentSummaryOut :=
  let items := washedItemsForDay s branchId day
  { totalSales := round2 ((items.map fun pr =>
      if pr.2.price = 0 then listPriceOf s pr.2.serviceItemId else pr.2.price).sum)
    totalCompanyEarnings := round2 ((items.map fun pr =>
      (PaymentController.calculatePaymentSplit (listNameOf s pr.2.serviceItemId)
        (if pr.2.price = 0 then listPriceOf s pr.2.serviceItemId else pr.2.price)).companyShare).sum)
    totalWasherEarnings := round2 ((items.map fun pr =>
      (PaymentController.calculatePaymentSplit (listNameOf s pr.2.serviceItemId)
        (if pr.2.price = 0 then listPriceOf s pr.2.serviceItemId else pr.2.price)).washerShare).sum)
    totalCarsWashed := (dedupFirst (items.map (·.1))).length
    totalItemsWashed := items.length }

/-- C7: the Summary Reconstructor's reported total sales is the (rounded)
sum of the effective prices of the day's line items in the branch, and the
result is computed without the aggregate tables: replacing the per-washer-day
and per-branch-day aggregate tables by anything leaves the output unchanged. -/
theorem C7_reconstructor_total_sales (s : State) (branchId day : Nat)
    (ds : List DailySummary) (cds : List CompanyDailySummary) :
    (getCompanyDailySummary s branchId day).totalEarnings =
      round2 (((washedItemsForDay s branchId day).map fun pr =>
        if pr.2.price = 0 then listPriceOf s pr.2.serviceItemId else pr.2.price).sum) ∧
    getCompanyDailySummary
        { s with dailySummaries := ds, companyDailySummaries := cds } branchId day =
      getCompanyDailySummary s branchId day :=
  ⟨rfl, rfl⟩

/-- C10: in both read-side summaries the price used for a line item is the
stored line-item price when it is nonzero, and the service item's current
list price when the stored price is zero. -/
theorem C10_stored_price_fallback (s : State) (branchId day : Nat) :
    (getCompanyDailySummary s branchId day).totalEarnings =
      round2 (((washedItemsForDay s branchId day).map fun pr =>
        if pr.2.price ≠ 0 then pr.2.price else listPriceOf s pr.2.serviceItemId).sum) ∧
    (getDailyPaymentSummary s branchId day).totalSales =
      round2 (((washedItemsForDay s branchId day).map fun pr =>
        if pr.2.price ≠ 0 then pr.2.price else listPriceOf s pr.2.serviceItemId).sum) := by
  have hmap : ((washedItemsForDay s branchId day).map fun pr =>
      if pr.2.price = 0 then listPriceOf s pr.2.serviceItemId else pr.2.price) =
      ((washedItemsForDay s branchId day).map fun pr =>
      if pr.2.price ≠ 0 then pr.2.price else listPriceOf s pr.2.serviceItemId) := by
    refine List.map_congr_left fun pr _ => ?_
    by_cases h : pr.2.price = 0 <;> simp [h]
  constructor
  · show round2 (((washedItemsForDay s branchId day).map fun pr =>
      if pr.2.price = 0 then listPriceOf s pr.2.serviceItemId else pr.2.price).sum) = _
    rw [hmap]
  · show round2 (((washedItemsForDay s branchId day).map fun pr =>
      if pr.2.price = 0 then listPriceOf s pr.2.serviceItemId else pr.2.price).sum) = _
    rw [hmap]

/-! ## All-branches summary -/

/-- Lexicographic `≤` on character lists: the database's ascending order on
branch names. -/
def charListLe : List Char → List Char → Bool
  | [], _ => true
  | _ :: _, [] => false
  | a :: as, b :: bs => if a < b then true else if b < a then false else charListLe as bs

def stringLe (a b : String) : Bool := charListLe a.data b.data

/-- Stable insertion of a branch into a name-sorted list. -/
def insertByName (b : Branch) : List Branch → List Branch
  | [] => [b]
  | x :: xs => if stringLe b.name x.name then b :: x :: xs else x :: insertByName b xs

/-- Stable sort of branches by name, ascending. -/
def sortBranchesByName : List Branch → List Branch
  | [] => []
  | x :: xs => insertByName x (sortBranchesByName xs)

/-- Query `prisma.branch.findMany` restricted to active branches, ordered by name ascending
(recordController.js lines 691-700). -/
def activeBranchesSorted (s : State) : List Branch :=
  sortBranchesByName (s.branches.filter (·.isActive))

structure OverallTotals where
  totalEarnings : ℚ
  companyShare : ℚ
  workerShare : ℚ
  totalJobs : Nat
  totalItemsWashed : Nat
  cash : ℚ
  transfer : ℚ
deriving DecidableEq, Repr

structure AllBranchesOut where
  branches : List (Branch × DaySummaryOut)
  overallTotals : OverallTotals
deriving DecidableEq, Repr

/-- Handler `getCompanyDailySummaryAllBranches` from recordController.js (lines
680-859): each active branch's summary is computed independently (the source
inlines, verbatim, the same per-branch computation as
`getCompanyDailySummary`), then the `reduce` at lines 815-832 sums the
already-rounded per-branch outputs and lines 839-847 round those sums again. -/
def getCompanyDailySummaryAllBranches (s : State) (day : Nat) : AllBranchesOut :=
  let branchSummaries := (activeBranchesSorted s).map fun b =>
    (b, getCompanyDailySummary s b.id day)
  let sums := branchSummaries.map (·.2)
  { branches := branchSummaries
    overallTotals :=
      { totalEarnings := round2 ((sums.map (·.totalEarnings)).sum)
        companyShare := round2 ((sums.map (·.companyShare)).sum)
        workerShare := round2 ((sums.map (·.workerShare)).sum)
        totalJobs := (sums.map (·.totalJobs)).sum
        totalItemsWashed := (sums.map (·.totalItemsWashed)).sum
        cash := round2 ((sums.map (·.cash)).sum)
        transfer := round2 ((sums.map (·.transfer)).sum) } }

/-- State exhibiting double rounding in the all-branches summary: two active
branches, each with one job on day 5 consisting of a single special line
("Engine Wash") at price 1, whose washer share is 1/3 per branch. -/
def c8State : State :=
  { branches := [⟨1, "Branch A", true⟩, ⟨2, "Branch B", true⟩]
    washers := [⟨10, "Idowu", 1, true⟩, ⟨11, "Idowu", 2, true⟩]
    serviceItems := [⟨20, "Engine Wash", 1, true⟩]
    carWashes :=
      [⟨100, 1, dayStart 5, none, 1, [⟨10, 20, 1⟩], [10]⟩,
       ⟨101, 2, dayStart 5, none, 1, [⟨11, 20, 1⟩], [11]⟩]
    dailySummaries := []
    companyDailySummaries := []
    nextId := 102 }

/-- Counterexample to C8: the overall worker-share total of the all-branches
summary is the re-rounded sum of the already-rounded per-branch values
(0.33 + 0.33 → 0.66), not the once-rounded sum of the unrounded per-branch
values (round2(1/3 + 1/3) = 0.67). -/
theorem C8_counterexample :
    (getCompanyDailySummaryAllBranches c8State 5).overallTotals.workerShare ≠
      round2 (((activeBranchesSorted c8State).map fun b =>
        (branchDayRaw c8State b.id 5).washerEarnings).sum) := by
  with_unfolding_all decide

/-- C8 (amended): the all-branches summary computes each active branch's
result independently over the name-sorted active branch list and sums those
per-branch outputs into the overall totals; each monetary value is rounded at
the per-branch output boundary, and the overall monetary totals are the
rounding of the sums of those already-rounded per-branch values. -/
theorem C8_amended_all_branches (s : State) (day : Nat) :
    (getCompanyDailySummaryAllBranches s day).branches =
      ((activeBranchesSorted s).map fun b => (b, getCompanyDailySummary s b.id day)) ∧
    (getCompanyDailySummaryAllBranches s day).overallTotals.totalEarnings =
      round2 ((((getCompanyDailySummaryAllBranches s day).branches.map
        fun bs => bs.2.totalEarnings).sum)) ∧
    (getCompanyDailySummaryAllBranches s day).overallTotals.companyShare =
      round2 ((((getCompanyDailySummaryAllBranches s day).branches.map
        fun bs => bs.2.companyShare).sum)) ∧
    (getCompanyDailySummaryAllBranches s day).overallTotals.workerShare =
      round2 ((((getCompanyDailySummaryAllBranches s day).branches.map
        fun bs => bs.2.workerShare).sum)) ∧
    (getCompanyDailySummaryAllBranches s day).overallTotals.cash =
      round2 ((((getCompanyDailySummaryAllBranches s day).branches.map
        fun bs => bs.2.cash).sum)) ∧
    (getCompanyDailySummaryAllBranches s day).overallTotals.transfer =
      round2 ((((getCompanyDailySummaryAllBranches s day).branches.map
        fun bs => bs.2.transfer).sum)) ∧
    (getCompanyDailySummaryAllBranches s day).overallTotals.totalJobs =
      (((getCompanyDailySummaryAllBranches s day).branches.map
        fun bs => bs.2.totalJobs).sum) := by
  refine ⟨rfl, ?_, ?_, ?_, ?_, ?_, ?_⟩ <;>
    simp only [getCompanyDailySummaryAllBranches, List.map_map, Function.comp] <;> rfl

/-! ## Job ingestion (`createCarWashRecord`, recordController.js lines 46-311)

The HTTP handler is modelled as a pure function from the request and the
store to either a structured error (the source's early `res.status(400)`
returns, all of which happen before the Prisma transaction) or the updated
store plus the created job. -/

/-- One entry of the request's `items` array. -/
structure RequestItem where
  washerName : String
  serviceItemName : String
  customPrice : Option ℚ
deriving DecidableEq, Repr

/-- The structured validation errors of `createCarWashRecord`. -/
inductive IngestError where
  | noItems
  | badPaymentMethod
  | specialNeedsIdowu
  | missingWashers (names : List String)
  | missingServiceItems (names : List String)
  | missingCustomPrices (names : List String)
deriving DecidableEq, Repr

/-- The payment-method guard (lines 60-65): a present, non-empty payment
method must lowercase to "cash" or "transfer" (the empty string is falsy in
JavaScript and skips the check). -/
def pmIsInvalid : Option String → Bool
  | none => false
  | some p => !(p == "") && !(["cash", "transfer"].contains (jsToLower p))

/-- Query `prisma.washer.findFirst` for the branch's active "Idowu" washer,
case-insensitive name match (lines 86-92). -/
def findIdowuWasher (s : State) (branchId : Nat) : Option Washer :=
  (s.washers.filter fun w =>
    jsToLower w.name == "idowu" && w.branchId == branchId && w.isActive).head?

/-- Query `prisma.washer.findMany` over the submitted names, restricted to
active washers of the branch (lines 72-79). -/
def fetchedWashers (s : State) (branchId : Nat) (washerNames : List String) : List Washer :=
  s.washers.filter fun w =>
    washerNames.contains w.name && w.isActive && w.branchId == branchId

/-- Lookup `washerMap[name]` (line 104): `Object.fromEntries` keeps the last
entry per name. -/
def washerMapLookup (s : State) (branchId : Nat) (washerNames : List String)
    (name : String) : Option Nat :=
  (((fetchedWashers s branchId washerNames).filter fun w => w.name == name).getLast?).map
    (·.id)

/-- Query `prisma.serviceItem.findMany` over the submitted service-item
names, restricted to active items (lines 80-82). -/
def fetchedServiceItems (s : State) (serviceItemNames : List String) : List ServiceItem :=
  s.serviceItems.filter fun it => serviceItemNames.contains it.name && it.isActive

/-- Lookup `serviceItemMap[name]` (lines 105-107). -/
def serviceItemLookup (s : State) (serviceItemNames : List String)
    (name : String) : Option ServiceItem :=
  ((fetchedServiceItems s serviceItemNames).filter fun it => it.name == name).getLast?

/-- Lines 150-173: one entry of `itemsWithIds`. The effective price is the
custom price when the service item has list price 0 and a truthy (nonzero)
custom price was supplied, else the list price; the credited washer is the
branch's Idowu washer for special lines and the submission-named washer
otherwise. The `getD` defaults are unreachable behind the handler's
validation guards. -/
def resolveLine (s : State) (branchId : Nat) (washerNames serviceItemNames : List String)
    (it : RequestItem) : LineItem :=
  let sd := (serviceItemLookup s serviceItemNames it.serviceItemName).getD ⟨0, "", 0, false⟩
  let finalPrice :=
    match it.customPrice with
    | some c => if sd.price = 0 ∧ c ≠ 0 then c else sd.price
    | none => sd.price
  let actualWasherId :=
    if RecordController.isSpecialItem it.serviceItemName then
      ((findIdowuWasher s branchId).map (·.id)).getD 0
    else
      (washerMapLookup s branchId washerNames it.washerName).getD 0
  { washerId := actualWasherId, serviceItemId := sd.id, price := finalPrice }

/-- Upsert `tx.dailySummary.upsert` keyed by `(washerId, date, branchId)`
(lines 247-272); the key is unique, so updating every matching row models
updating the single matching row. -/
def upsertDailySummary (rows : List DailySummary)
    (washerId branchId date carsInc itemsInc : Nat) : List DailySummary :=
  if rows.any fun r => r.washerId == washerId && r.date == date && r.branchId == branchId then
    rows.map fun r =>
      if r.washerId == washerId && r.date == date && r.branchId == branchId then
        { r with totalCarsWashed := r.totalCarsWashed + carsInc
                 totalItemsWashed := r.totalItemsWashed + itemsInc }
      else r
  else
    rows ++ [⟨washerId, branchId, date, carsInc, itemsInc⟩]

/-- Upsert `tx.companyDailySummary.upsert` keyed by `(branchId, date)`
(lines 275-292). -/
def upsertCompanyDailySummary (rows : List CompanyDailySummary)
    (branchId date carsInc itemsInc : Nat) : List CompanyDailySummary :=
  if rows.any fun r => r.branchId == branchId && r.date == date then
    rows.map fun r =>
      if r.branchId == branchId && r.date == date then
        { r with totalCarsWashed := r.totalCarsWashed + carsInc
                 totalItemsWashed := r.totalItemsWashed + itemsInc }
      else r
  else
    rows ++ [⟨branchId, date, carsInc, itemsInc⟩]

/-- Handler `createCarWashRecord` (lines 46-311). `now` is the server clock in epoch
milliseconds; the created job's `washDate` takes the store default
`CURRENT_TIMESTAMP`, and `today` is `now` truncated to midnight. The
`washerCarInvolvement` query (lines 236-244) runs inside the transaction
after the job row is inserted, so it sees the new job. -/
def createCarWashRecord (s : State) (branchId : Nat) (pm : Option String)
    (items : List RequestItem) (now : Nat) : Except IngestError (State × CarWash) :=
  if items.isEmpty then .error .noItems
  else if pmIsInvalid pm then .error .badPaymentMethod
  else
    let washerNames := dedupFirst (items.map (·.washerName))
    let serviceItemNames := dedupFirst (items.map (·.serviceItemName))
    if (items.any fun it => RecordController.isSpecialItem it.serviceItemName) &&
        (findIdowuWasher s branchId).isNone then
      .error .specialNeedsIdowu
    else
      let missingWashers := washerNames.filter fun n =>
        (washerMapLookup s branchId washerNames n).isNone
      if !missingWashers.isEmpty then .error (.missingWashers missingWashers)
      else
        let missingServiceItems := serviceItemNames.filter fun n =>
          (serviceItemLookup s serviceItemNames n).isNone
        if !missingServiceItems.isEmpty then .error (.missingServiceItems missingServiceItems)
        else
          let missingPrices := (items.filter fun it =>
            match serviceItemLookup s serviceItemNames it.serviceItemName with
            | some sd => sd.price == 0 &&
                (match it.customPrice with
                 | none => true
                 | some c => decide (c ≤ 0))
            | none => false).map (·.serviceItemName)
          if !missingPrices.isEmpty then .error (.missingCustomPrices missingPrices)
          else
            let itemsWithIds := items.map (resolveLine s branchId washerNames serviceItemNames)
            let totalAmount := (itemsWithIds.map (·.price)).sum
            let allInvolvedWasherIds := dedupFirst (itemsWithIds.map (·.washerId))
            let today := now / msPerDay * msPerDay
            let newJob : CarWash :=
              { id := s.nextId, branchId := branchId, washDate := now, paymentMethod := pm
                totalAmount := totalAmount, washedItems := itemsWithIds
                washers := allInvolvedWasherIds }
            let carWashes1 := s.carWashes ++ [newJob]
            let involvement : Nat → Bool := fun wid =>
              !((carWashes1.filter fun cw =>
                  cw.branchId == branchId && decide (today ≤ cw.washDate) &&
                    cw.washers.contains wid).any fun cw => cw.id == newJob.id)
            let itemCount : Nat → Nat := fun wid =>
              (itemsWithIds.filter fun li => li.washerId == wid).length
            let newDailies := allInvolvedWasherIds.foldl
              (fun rows wid => upsertDailySummary rows wid branchId today
                (if involvement wid then 1 else 0) (itemCount wid))
              s.dailySummaries
            let newCompany := upsertCompanyDailySummary s.companyDailySummaries branchId
              today 1 itemsWithIds.length
            .ok ({ s with carWashes := carWashes1, nextId := s.nextId + 1
                          dailySummaries := newDailies
                          companyDailySummaries := newCompany }, newJob)

/-- The store state after serving a creation request: unchanged when the
handler returns an error (every failure path returns before, or aborts, the
transaction). -/
def stateAfterCreate (s : State) (branchId : Nat) (pm : Option String)
    (items : List RequestItem) (now : Nat) : State :=
  match createCarWashRecord s branchId pm items now with
  | .ok (s1, _) => s1
  | .error _ => s

/-- Does the handler's result report missing washer names (the reference
error of lines 110-116)? -/
def isMissingWasherError : Except IngestError (State × CarWash) → Bool
  | .error (.missingWashers _) => true
  | _ => false

/-! ## C1: the per-washer-day job counter -/

/-- Branch 1 with active washer Sam and two fixed-price service items;
no jobs exist yet. -/
def c1State : State :=
  { branches := [⟨1, "Branch A", true⟩]
    washers := [⟨10, "Sam", 1, true⟩]
    serviceItems := [⟨20, "Full Wash", 50, true⟩, ⟨21, "Body Wash", 100, true⟩]
    carWashes := []
    dailySummaries := []
    companyDailySummaries := []
    nextId := 100 }

/-- A job with two non-special lines, both credited to Sam — Sam's first job
of the day. -/
def c1Items : List RequestItem :=
  [⟨"Sam", "Full Wash", none⟩, ⟨"Sam", "Body Wash", none⟩]

def c1Now : Nat := 5 * msPerDay + 1000

/-- C1 (code bug evidence): ingesting Sam's first job of the day, with two
lines credited to Sam, leaves Sam's per-washer-day job counter at 0 (the
claim and the spec require 1) while the item counter correctly becomes 2.
The `washerCarInvolvement` check of lines 236-244 queries today's jobs after
the new job was inserted in the same transaction and asks whether the new
job is absent from the result — which is never the case — so the job counter
is incremented by 0 on every ingestion. -/
theorem C1_job_counter_never_increments :
    (createCarWashRecord c1State 1 none c1Items c1Now).map
        (fun r => r.1.dailySummaries.map fun d =>
          (d.washerId, d.totalCarsWashed, d.totalItemsWashed)) =
      Except.ok [(10, 0, 2)] := by
  with_unfolding_all rfl

/-! ## C3: special items require an active Idowu washer -/

/-- C3: a submission containing at least one special line, made in a branch
with no active "Idowu" washer, is rejected with a structured error and the
store is unchanged (no job, no line items, no aggregate rows). -/
theorem C3_special_without_idowu_rejected (s : State) (branchId : Nat)
    (pm : Option String) (items : List RequestItem) (now : Nat)
    (hSpecial : (items.any fun it => RecordController.isSpecialItem it.serviceItemName) = true)
    (hNoIdowu : findIdowuWasher s branchId = none) :
    (∃ e, createCarWashRecord s branchId pm items now = Except.error e) ∧
    stateAfterCreate s branchId pm items now = s := by
  have herr : ∃ e, createCarWashRecord s branchId pm items now = Except.error e := by
    unfold createCarWashRecord
    rw [hNoIdowu, hSpecial]
    split
    · exact ⟨.noItems, rfl⟩
    · split
      · exact ⟨.badPaymentMethod, rfl⟩
      · exact ⟨.specialNeedsIdowu, by simp⟩
  obtain ⟨e, he⟩ := herr
  refine ⟨⟨e, he⟩, ?_⟩
  unfold stateAfterCreate
  rw [he]

/-- Branch 1 has washer Sam but no Idowu; "Engine Wash" is special. -/
def c3State : State :=
  { branches := [⟨1, "Branch A", true⟩]
    washers := [⟨10, "Sam", 1, true⟩]
    serviceItems := [⟨20, "Engine Wash", 300, true⟩]
    carWashes := []
    dailySummaries := []
    companyDailySummaries := []
    nextId := 100 }

def c3Items : List RequestItem := [⟨"Sam", "Engine Wash", none⟩]

/-- Witness for C3 at a concrete branch with no active Idowu. -/
theorem C3_special_without_idowu_rejected_witness :
    (∃ e, createCarWashRecord c3State 1 none c3Items 1000 = Except.error e) ∧
    stateAfterCreate c3State 1 none c3Items 1000 = c3State :=
  C3_special_without_idowu_rejected c3State 1 none c3Items 1000 (by decide) (by decide)

/-! ## Helper lemmas about name resolution -/

theorem mem_dedupFirst {α : Type} [DecidableEq α] {a : α} :
    ∀ {l : List α}, a ∈ dedupFirst l ↔ a ∈ l := by
  intro l
  induction l with
  | nil => simp [dedupFirst]
  | cons x xs ih =>
    simp only [dedupFirst, List.mem_cons, List.mem_filter, decide_eq_true_eq]
    constructor
    · rintro (rfl | ⟨h, _⟩)
      · exact .inl rfl
      · exact .inr (ih.mp h)
    · rintro (rfl | h)
      · exact .inl rfl
      · by_cases hax : a = x
        · exact .inl hax
        · exact .inr ⟨ih.mpr h, hax⟩

/-- A successful `washerMap` lookup returns the id of an active washer of the
branch carrying the looked-up name. -/
theorem washerMapLookup_some {s : State} {branchId : Nat} {names : List String}
    {n : String} {wid : Nat}
    (h : washerMapLookup s branchId names n = some wid) :
    ∃ w ∈ s.washers, w.isActive = true ∧ w.branchId = branchId ∧
      w.name = n ∧ w.id = wid := by
  unfold washerMapLookup at h
  obtain ⟨w, hget, hid⟩ : ∃ w,
      (((fetchedWashers s branchId names).filter fun w => w.name == n).getLast?) = some w ∧
      w.id = wid := by
    cases hget : (((fetchedWashers s branchId names).filter fun w => w.name == n).getLast?) with
    | none => rw [hget] at h; simp at h
    | some w => rw [hget] at h; simp only [Option.map_some'] at h; exact ⟨w, rfl, by injection h⟩
  have hmem := List.mem_of_mem_getLast? hget
  rw [List.mem_filter] at hmem
  obtain ⟨hmem1, hname⟩ := hmem
  unfold fetchedWashers at hmem1
  rw [List.mem_filter] at hmem1
  obtain ⟨hmem2, hcond⟩ := hmem1
  simp only [Bool.and_eq_true, beq_iff_eq] at hcond hname
  exact ⟨w, hmem2, hcond.1.2, hcond.2, hname, hid⟩

/-- A failed `washerMap` lookup of a submitted name means the branch has no
matching active washer. -/
theorem washerMapLookup_none {s : State} {branchId : Nat} {names : List String}
    {n : String} (hn : n ∈ names)
    (h : washerMapLookup s branchId names n = none) :
    ∀ w ∈ s.washers, ¬(w.name = n ∧ w.isActive = true ∧ w.branchId = branchId) := by
  rintro w hw ⟨hname, hact, hbr⟩
  unfold washerMapLookup at h
  rw [Option.map_eq_none', List.getLast?_eq_none_iff] at h
  have hmem : w ∈ ((fetchedWashers s branchId names).filter fun w => w.name == n) := by
    rw [List.mem_filter]
    refine ⟨?_, by simp [hname]⟩
    unfold fetchedWashers
    rw [List.mem_filter]
    refine ⟨hw, ?_⟩
    simp only [Bool.and_eq_true, beq_iff_eq]
    exact ⟨⟨by simp [hname, hn], hact⟩, hbr⟩
  rw [h] at hmem
  simp at hmem

/-! ## C6: which submissions fail with the missing-washer reference error -/

/-- Branch 1 with an active Idowu washer and an active special service item;
"Ghost" is not a washer of the branch. -/
def c6cexState : State :=
  { branches := [⟨1, "Branch A", true⟩]
    washers := [⟨11, "Idowu", 1, true⟩]
    serviceItems := [⟨20, "Engine Wash", 300, true⟩]
    carWashes := []
    dailySummaries := []
    companyDailySummaries := []
    nextId := 100 }

/-- A single line naming washer "Ghost" on a special item; the line's credit
goes to Idowu, yet the handler still validates the name "Ghost". -/
def c6cexItems : List RequestItem := [⟨"Ghost", "Engine Wash", none⟩]

/-- Counterexample to C6: every line of this submission is special (so the
claim says the absent washer name "Ghost" must not cause a rejection), but
the handler rejects it with the missing-washer reference error: line 110 of
recordController.js validates every submitted washer name, including names
used only on special lines. -/
theorem C6_counterexample :
    (c6cexItems.all fun it => RecordController.isSpecialItem it.serviceItemName) = true ∧
    isMissingWasherError (createCarWashRecord c6cexState 1 none c6cexItems 1000) = true := by
  constructor
  · decide
  · with_unfolding_all rfl

/-- C6 (amended): provided the earlier guards pass (nonempty items, valid
payment method, and an active Idowu whenever some line is special), the
submission fails with the missing-washer reference error exactly when some
submitted washer name — on any line, special lines included — has no
matching active washer in the branch. -/
theorem C6_missing_washer_iff (s : State) (branchId : Nat) (pm : Option String)
    (items : List RequestItem) (now : Nat)
    (hItems : items ≠ [])
    (hPm : pmIsInvalid pm = false)
    (hIdowu : ((items.any fun it => RecordController.isSpecialItem it.serviceItemName) &&
        (findIdowuWasher s branchId).isNone) = false) :
    isMissingWasherError (createCarWashRecord s branchId pm items now) = true ↔
      ∃ it ∈ items, ∀ w ∈ s.washers,
        ¬(w.name = it.washerName ∧ w.isActive = true ∧ w.branchId = branchId) := by
  have hItems1 : items.isEmpty = false := by
    rw [List.isEmpty_eq_false]
    exact hItems
  simp only [createCarWashRecord, hItems1, hPm, hIdowu, Bool.false_eq_true, if_false]
  cases hM : ((dedupFirst (items.map fun x => x.washerName)).filter fun n =>
      (washerMapLookup s branchId (dedupFirst (items.map fun x => x.washerName)) n).isNone).isEmpty with
  | false =>
    simp only [hM, Bool.not_false, if_true]
    have hne : ((dedupFirst (items.map fun x => x.washerName)).filter fun n =>
        (washerMapLookup s branchId (dedupFirst (items.map fun x => x.washerName)) n).isNone) ≠ [] := by
      intro hnil
      rw [hnil] at hM
      simp at hM
    obtain ⟨n, hnmem⟩ := List.exists_mem_of_ne_nil _ hne
    rw [List.mem_filter] at hnmem
    obtain ⟨hdedup, hnone⟩ := hnmem
    rw [Option.isNone_iff_eq_none] at hnone
    have hnames : n ∈ items.map fun x => x.washerName := mem_dedupFirst.mp hdedup
    obtain ⟨it, hit, hitname⟩ := List.mem_map.mp hnames
    refine iff_of_true rfl ⟨it, hit, ?_⟩
    rw [hitname]
    exact washerMapLookup_none hdedup hnone
  | true =>
    simp only [hM, Bool.not_true, Bool.false_eq_true, if_false]
    rw [List.isEmpty_iff] at hM
    refine iff_of_false ?_ ?_
    · intro habs
      split at habs
      · simp [isMissingWasherError] at habs
      · split at habs
        · simp [isMissingWasherError] at habs
        · simp [isMissingWasherError] at habs
    · rintro ⟨it, hit, hprop⟩
      have hn : it.washerName ∈ dedupFirst (items.map fun x => x.washerName) :=
        mem_dedupFirst.mpr (List.mem_map_of_mem _ hit)
      have hnotnone : ¬((washerMapLookup s branchId
          (dedupFirst (items.map fun x => x.washerName)) it.washerName).isNone = true) := by
        intro hnone
        have := (List.filter_eq_nil_iff.mp hM) _ hn
        exact this hnone
      rw [Option.isNone_iff_eq_none] at hnotnone
      obtain ⟨wid, hwid⟩ : ∃ wid, washerMapLookup s branchId
          (dedupFirst (items.map fun x => x.washerName)) it.washerName = some wid := by
        cases hcase : washerMapLookup s branchId
            (dedupFirst (items.map fun x => x.washerName)) it.washerName with
        | none => exact absurd hcase hnotnone
        | some a => exact ⟨a, rfl⟩
      obtain ⟨w, hwmem, hact, hbr, hname, _⟩ := washerMapLookup_some hwid
      exact hprop w hwmem ⟨hname, hact, hbr⟩

/-- A branch with no washers at all and one regular service item. -/
def c6wState : State :=
  { branches := [⟨1, "Branch A", true⟩]
    washers := []
    serviceItems := [⟨21, "Full Wash", 50, true⟩]
    carWashes := []
    dailySummaries := []
    companyDailySummaries := []
    nextId := 50 }

def c6wItems : List RequestItem := [⟨"Bob", "Full Wash", none⟩]

/-- Witness for the amended C6 at a concrete submission naming the absent
washer "Bob". -/
theorem C6_missing_washer_iff_witness :
    isMissingWasherError (createCarWashRecord c6wState 1 none c6wItems 1000) = true ↔
      ∃ it ∈ c6wItems, ∀ w ∈ c6wState.washers,
        ¬(w.name = it.washerName ∧ w.isActive = true ∧ w.branchId = 1) :=
  C6_missing_washer_iff c6wState 1 none c6wItems 1000 (List.cons_ne_nil _ _) rfl (by decide)

/-! ## C2: which washer is credited on each line -/

/-- Inversion of a successful ingestion: the Idowu guard and the
missing-washer guard passed, and the stored line items are exactly the
resolved request lines, in order. -/
theorem createCarWashRecord_ok_inv {s : State} {branchId : Nat} {pm : Option String}
    {items : List RequestItem} {now : Nat} {s1 : State} {job : CarWash}
    (h : createCarWashRecord s branchId pm items now = Except.ok (s1, job)) :
    ((items.any fun it => RecordController.isSpecialItem it.serviceItemName) &&
        (findIdowuWasher s branchId).isNone) = false ∧
    ((dedupFirst (items.map fun x => x.washerName)).filter fun n =>
        (washerMapLookup s branchId (dedupFirst (items.map fun x => x.washerName)) n).isNone) = [] ∧
    job.washedItems = items.map (resolveLine s branchId
        (dedupFirst (items.map fun x => x.washerName))
        (dedupFirst (items.map fun x => x.serviceItemName))) := by
  simp only [createCarWashRecord] at h
  split at h
  · exact Except.noConfusion h
  split at h
  · exact Except.noConfusion h
  split at h
  · exact Except.noConfusion h
  rename_i hguard
  split at h
  · exact Except.noConfusion h
  rename_i hmiss
  split at h
  · exact Except.noConfusion h
  split at h
  · exact Except.noConfusion h
  injection h with h2
  injection h2 with hS hJ
  subst hS
  subst hJ
  refine ⟨Bool.not_eq_true _ |>.mp hguard, ?_, rfl⟩
  simp at hmiss
  refine List.filter_eq_nil_iff.mpr fun a ha hno => ?_
  exact hmiss a ha (Option.isNone_iff_eq_none.mp hno)

/-- C2: on a successfully ingested job the stored line items are the
positional resolution of the request lines, and the resolution credits each
special line to the branch's Idowu washer (ignoring the submitted name) and
each other line — rug lines included — to the branch's active washer
matching the submitted name. -/
theorem C2_credit_resolution (s : State) (branchId : Nat) (pm : Option String)
    (items : List RequestItem) (now : Nat) (s1 : State) (job : CarWash)
    (h : createCarWashRecord s branchId pm items now = Except.ok (s1, job)) :
    job.washedItems = items.map (resolveLine s branchId
      (dedupFirst (items.map fun x => x.washerName))
      (dedupFirst (items.map fun x => x.serviceItemName))) ∧
    ∀ it ∈ items,
      (RecordController.isSpecialItem it.serviceItemName = true →
        ∃ w, findIdowuWasher s branchId = some w ∧
          (resolveLine s branchId (dedupFirst (items.map fun x => x.washerName))
            (dedupFirst (items.map fun x => x.serviceItemName)) it).washerId = w.id) ∧
      (RecordController.isSpecialItem it.serviceItemName = false →
        ∃ w ∈ s.washers, w.isActive = true ∧ w.branchId = branchId ∧
          w.name = it.washerName ∧
          (resolveLine s branchId (dedupFirst (items.map fun x => x.washerName))
            (dedupFirst (items.map fun x => x.serviceItemName)) it).washerId = w.id) := by
  obtain ⟨hguard, hmiss, hitems⟩ := createCarWashRecord_ok_inv h
  refine ⟨hitems, fun it hit => ⟨fun hspec => ?_, fun hspec => ?_⟩⟩
  · have hany : (items.any fun x => RecordController.isSpecialItem x.serviceItemName) = true :=
      List.any_eq_true.mpr ⟨it, hit, hspec⟩
    rw [hany, Bool.true_and] at hguard
    obtain ⟨w, hw⟩ : ∃ w, findIdowuWasher s branchId = some w := by
      cases hcase : findIdowuWasher s branchId with
      | none => rw [hcase] at hguard; simp at hguard
      | some w => exact ⟨w, rfl⟩
    refine ⟨w, hw, ?_⟩
    simp only [resolveLine, hspec, if_true, hw, Option.map_some', Option.getD_some]
  · have hn : it.washerName ∈ dedupFirst (items.map fun x => x.washerName) :=
      mem_dedupFirst.mpr (List.mem_map_of_mem _ hit)
    have hnotnone := List.filter_eq_nil_iff.mp hmiss _ hn
    obtain ⟨wid, hwid⟩ : ∃ wid, washerMapLookup s branchId
        (dedupFirst (items.map fun x => x.washerName)) it.washerName = some wid := by
      cases hcase : washerMapLookup s branchId
          (dedupFirst (items.map fun x => x.washerName)) it.washerName with
      | none => rw [hcase] at hnotnone; simp at hnotnone
      | some a => exact ⟨a, rfl⟩
    obtain ⟨w, hmem, hact, hbr, hname, hid⟩ := washerMapLookup_some hwid
    refine ⟨w, hmem, hact, hbr, hname, ?_⟩
    simp only [resolveLine, hspec, Bool.false_eq_true, if_false, hwid, Option.getD_some]
    exact hid.symm

/-- Branch 1 with washers Sam and Idowu and two service items, one special. -/
def c2State : State :=
  { branches := [⟨1, "Branch A", true⟩]
    washers := [⟨10, "Sam", 1, true⟩, ⟨11, "Idowu", 1, true⟩]
    serviceItems := [⟨20, "Engine Wash", 300, true⟩, ⟨21, "Full Wash", 50, true⟩]
    carWashes := []
    dailySummaries := []
    companyDailySummaries := []
    nextId := 100 }

/-- The spec's worked example: Sam submits an Engine Wash and a Full Wash. -/
def c2Items : List RequestItem :=
  [⟨"Sam", "Engine Wash", none⟩, ⟨"Sam", "Full Wash", none⟩]

def c2Now : Nat := 5 * msPerDay + 1000

/-- The job created from `c2Items`: the special line is credited to Idowu
(id 11), the regular line to Sam (id 10). -/
def c2OutJob : CarWash :=
  { id := 100, branchId := 1, washDate := 432001000, paymentMethod := none
    totalAmount := 350
    washedItems := [⟨11, 20, 300⟩, ⟨10, 21, 50⟩]
    washers := [11, 10] }

def c2OutState : State :=
  { branches := [⟨1, "Branch A", true⟩]
    washers := [⟨10, "Sam", 1, true⟩, ⟨11, "Idowu", 1, true⟩]
    serviceItems := [⟨20, "Engine Wash", 300, true⟩, ⟨21, "Full Wash", 50, true⟩]
    carWashes := [c2OutJob]
    dailySummaries := [⟨11, 1, 432000000, 0, 1⟩, ⟨10, 1, 432000000, 0, 1⟩]
    companyDailySummaries := [⟨1, 432000000, 1, 2⟩]
    nextId := 101 }

/-- Witness for C2 at the spec's worked example. -/
theorem C2_credit_resolution_witness :
    c2OutJob.washedItems = c2Items.map (resolveLine c2State 1
      (dedupFirst (c2Items.map fun x => x.washerName))
      (dedupFirst (c2Items.map fun x => x.serviceItemName))) ∧
    ∀ it ∈ c2Items,
      (RecordController.isSpecialItem it.serviceItemName = true →
        ∃ w, findIdowuWasher c2State 1 = some w ∧
          (resolveLine c2State 1 (dedupFirst (c2Items.map fun x => x.washerName))
            (dedupFirst (c2Items.map fun x => x.serviceItemName)) it).washerId = w.id) ∧
      (RecordController.isSpecialItem it.serviceItemName = false →
        ∃ w ∈ c2State.washers, w.isActive = true ∧ w.branchId = 1 ∧
          w.name = it.washerName ∧
          (resolveLine c2State 1 (dedupFirst (c2Items.map fun x => x.washerName))
            (dedupFirst (c2Items.map fun x => x.serviceItemName)) it).washerId = w.id) :=
  C2_credit_resolution c2State 1 none c2Items c2Now c2OutState c2OutJob
    (by with_unfolding_all rfl)

end Topmost
